import Mathlib

/-!
Verification of the resonance kinematics generator
(`src/EVGModules/RESKinematicsGenerator.cxx`).

The C++ code is shallowly embedded over the rationals: doubles become `ℚ`,
the shared random stream becomes an explicit index into an abstract stream
`Nat → ℚ`, the external collaborators (cross-section evaluator, kinematic
bounds provider, importance-sampling envelope, variable transforms) become
fields of an `Externals` record, and the accept/reject `while(1)` loop is
written as structural recursion on the number of iterations remaining
before the configured ceiling (the source guards with
`iter++; if (iter > kRjMaxIterations) throw;`, which performs exactly
`kRjMaxIterations` trial bodies; here `remaining = kRjMaxIterations - iter + 1`
decreases to 0 at the point where the source throws).

The maximum-cross-section scan of `ComputeMaxXSec` is embedded in
log-Q2 space: the source iterates `Q2 = exp(logQ2min + iq2*dlogQ2)` and
steps backwards via `Q2 = exp(log(Q2) - dlogQ2)`, so the whole scan is a
function of the log coordinate `t` and of the sampled cross section
`S t = xsec(exp t)`; `lo` stands for `log(rQ2.min)` (the backward-step
boundary `Q2 < rQ2.min`).
-/

namespace RESKin

/-- `Range1D_t`: an ordered (min, max) pair for one kinematic variable. -/
structure Range1D where
  min : ℚ
  max : ℚ
deriving DecidableEq

/-- Modelled from the spec: `kASmallNum` (Conventions/Controls.h, not in the
sampled sources) is the small epsilon used to clamp ranges away from their
exact boundaries. -/
def kASmallNum : ℚ := 1 / 1000000000000

/-- The configuration values loaded by `LoadConfigData`. -/
structure Config where
  fWmin : ℚ
  fWmax : ℚ
  fQ2min : ℚ
  fQ2max : ℚ
  fSafetyFactor : ℚ
  fEMin : ℚ
  fWcut : ℚ
  fMaxXSecDiffTolerance : ℚ
  fGenerateUniformly : Bool
deriving DecidableEq

/-- The configuration registry surface read by `LoadConfigData`
(`GetDoubleDef`/`GetBoolDef`: a configured value or a default). -/
structure Registry where
  wMin : Option ℚ
  wMax : Option ℚ
  q2Min : Option ℚ
  q2Max : Option ℚ
  safetyFactor : Option ℚ
  minEnergyCached : Option ℚ
  wcut : Option ℚ
  maxXSecDiffTol : Option ℚ
  uniformOverPhaseSpace : Option Bool
deriving DecidableEq

/-- A registry with nothing configured: every option falls back to its default. -/
def emptyRegistry : Registry :=
  ⟨none, none, none, none, none, none, none, none, none⟩

/-- `RESKinematicsGenerator::LoadConfigData`: reads each option with its
source default (`W-min` -999999, `W-max` 999999, `Q2-min` -999999,
`Q2-max` 999999, `max-xsec-safety-factor` 1.25, `min-energy-cached` 1.0,
`Wcut` defaulting to the global parameter list value,
`max-xsec-diff-tolerance` 0, `uniform-over-phase-space` false). -/
def loadConfigData (r : Registry) (gcWcut : ℚ) : Config where
  fWmin := r.wMin.getD (-999999)
  fWmax := r.wMax.getD 999999
  fQ2min := r.q2Min.getD (-999999)
  fQ2max := r.q2Max.getD 999999
  fSafetyFactor := r.safetyFactor.getD (5/4)
  fEMin := r.minEnergyCached.getD 1
  fWcut := r.wcut.getD gcWcut
  fMaxXSecDiffTolerance := r.maxXSecDiffTol.getD 0
  fGenerateUniformly := r.uniformOverPhaseSpace.getD false

/-- Modelled from the spec: `utils::kinematics::ApplyCutsToKineLimits`
(Utils/KineUtils, not in the sampled sources) intersects the physical range
with the user cut range — cuts may narrow, never extend, the physical
region. -/
def applyCutsToKineLimits (r : Range1D) (lo hi : ℚ) : Range1D :=
  ⟨max r.min lo, min r.max hi⟩

/-- `RESKinematicsGenerator::WRange`: the physical W range narrowed by the
user W cuts, then capped by `Wcut` (`W.max = TMath::Min(fWcut, W.max)`).
The physical range `KineRange(interaction, kKVW)` is passed in as `physW`. -/
def WRange (cfg : Config) (physW : Range1D) : Range1D :=
  let W := applyCutsToKineLimits physW cfg.fWmin cfg.fWmax
  ⟨W.min, min cfg.fWcut W.max⟩

/-- `RESKinematicsGenerator::Q2Range`: the physical Q2 range narrowed by the
user Q2 cuts.  The physical range `KineRange(interaction, kKVQ2)` — which
depends on the interaction's current running W — is passed in as `physQ2`. -/
def Q2Range (cfg : Config) (physQ2 : Range1D) : Range1D :=
  applyCutsToKineLimits physQ2 cfg.fQ2min cfg.fQ2max

/-- The mutable kinematic state of an `Interaction`: running (trial) values
and selected (locked, final) values for W, Q2, x, y. -/
structure Kinematics where
  W : Option ℚ
  Q2 : Option ℚ
  x : Option ℚ
  y : Option ℚ
  selW : Option ℚ
  selQ2 : Option ℚ
  selx : Option ℚ
  sely : Option ℚ
deriving DecidableEq

/-- The interaction as the generator sees it: kinematic state plus the two
trust bits it sets/resets. -/
structure Interaction where
  kine : Kinematics
  bitSkipProcessChk : Bool
  bitSkipKinematicChk : Bool
deriving DecidableEq

/-- The event-record state touched by `ProcessEventRecord`: the two error
flags, the stored differential cross section, the event weight, and the
total cross section already associated with the event (`GetXSec`). -/
structure GHepRecord where
  flagNoAvailPhaseSpace : Bool
  flagNoValidKinematics : Bool
  diffXSec : Option ℚ
  xsec : ℚ
  weight : ℚ
deriving DecidableEq

/-- `EVGThreadException`: carries a reason string and the fast-forward
directive. -/
structure EVGThreadException where
  reason : String
  fastForward : Bool
deriving DecidableEq

/-- The four parameters and the range handed to the TF2 sampling envelope at
the first iteration (resonance mass, width, max differential cross section,
kinematically allowed Wmax). -/
structure EnvParams where
  qd2min : ℚ
  wmin : ℚ
  qd2max : ℚ
  wmax : ℚ
  mR : ℚ
  gR : ℚ
  xsecMax : ℚ
  kinWmax : ℚ
deriving DecidableEq

/-- The external collaborators consumed as black boxes: the kinematic-bounds
provider (`physW`, `physQ2` — the latter a function of the interaction's
current running W), the cross-section evaluator `xsec W Q2` in `kPSWQ2fE`,
the Jacobian between `kPSWQ2fE` and `kPSWQD2fE`, the envelope's density and
sampler, the dipole transforms `Q2toQD2`/`QD2toQ2`, the shared kinematics
random stream `rnd` (fresh uniform value in [0,1) per index), the cached
maximum cross section `MaxXSec`, the resonance identity, probe energy and
struck nucleon mass, `WQ2toXY`, and `PhaseSpaceVolume`. -/
structure Externals where
  physW : Range1D
  physQ2 : ℚ → Range1D
  xsec : ℚ → ℚ → ℚ
  jacobian : ℚ → ℚ → ℚ
  envEval : EnvParams → ℚ → ℚ → ℚ
  envSample : EnvParams → Nat → ℚ × ℚ
  q2toQD2 : ℚ → ℚ
  qd2toQ2 : ℚ → ℚ
  rnd : Nat → ℚ
  maxXSec : ℚ
  knownRes : Option ℚ
  probeE : ℚ
  struckNucM : ℚ
  wq2toXY : ℚ → ℚ → ℚ → ℚ → ℚ × ℚ
  phaseSpaceVolume : ℚ

/-- Modelled from the spec: `KineGeneratorWithCache::AssertXSecLimits`
(declared in the base class, not in the sampled sources) checks that the
true cross section does not exceed the envelope's effective ceiling at the
candidate point by more than the configured fractional tolerance; a
violation is a hard stop. -/
def assertXSecLimitsOK (xsecVal ceiling tol : ℚ) : Bool :=
  decide (xsecVal ≤ ceiling * (1 + tol))

/-- The loop-carried state of the rejection loop: the interaction, the event
record, the next index into the random stream, the envelope parameters once
initialized (iteration 1), and an instrumentation count of executed trial
bodies. -/
structure LoopSt where
  inter : Interaction
  ev : GHepRecord
  rndIdx : Nat
  env : Option EnvParams
  trials : Nat

/-- Result of one trial body: kinematics accepted (with the candidate pair
and its cross section), rejected (`continue`), or the hard stop from the
cross-section-ceiling assertion. -/
inductive TrialResult where
  | accept (st : LoopSt) (gW gQ2 xv : ℚ)
  | reject (st : LoopSt)
  | fatal (st : LoopSt)

/-- Write the candidate pair into the interaction's running kinematics
(`SetW(gW); SetQ2(gQ2)` without the `selected` flag). -/
def setWQ2running (i : Interaction) (gW gQ2 : ℚ) : Interaction :=
  { i with kine := { i.kine with W := some gW, Q2 := some gQ2 } }

/-- The envelope initialization performed at `iter == 1`: the code sets the
interaction's W to `Wmin`, recomputes the Q2 range at that W, clamps
`Q2min = 0 + kASmallNum`, `Q2max = Q2.max - kASmallNum`, maps them through
the (decreasing) dipole transform, and picks resonance mass/width 1.2/0.6
for an unknown resonance or (res mass)/0.220 for a known one. -/
def initEnvParams (cfg : Config) (ext : Externals) (Wmin Wmax xsecMax : ℚ) :
    EnvParams :=
  let Q2 := Q2Range cfg (ext.physQ2 Wmin)
  let Q2min := 0 + kASmallNum
  let Q2max := Q2.max - kASmallNum
  let QD2min := ext.q2toQD2 Q2max
  let QD2max := ext.q2toQD2 Q2min
  let mR := match ext.knownRes with
    | none => 6/5
    | some m => m
  let gR := match ext.knownRes with
    | none => 3/5
    | some _ => 11/50
  ⟨QD2min, Wmin, QD2max, Wmax, mR, gR, xsecMax, Wmax⟩

/-- The envelope parameters in force at a given iteration: freshly
initialized at iteration 1, afterwards the ones stored in the loop state. -/
def envParamsAt (cfg : Config) (ext : Externals) (Wmin Wmax xsecMax : ℚ)
    (iter : Nat) (st : LoopSt) : EnvParams :=
  if iter = 1 then initEnvParams cfg ext Wmin Wmax xsecMax
  else st.env.getD (initEnvParams cfg ext Wmin Wmax xsecMax)

/-- One body of the rejection loop (source lines 115–194).

Uniform mode: draw `gW = Wmin + dW*rnd`, recompute the Q2 range — the
source calls `Q2Range(interaction)` *without having stored `gW` on the
interaction*, so the range is conditioned on the interaction's current
(stale) running W — skip the iteration if that range is empty, draw
`gQ2` uniformly over it, set the skip-kinematic-check bit, evaluate the
cross section, and accept iff it is strictly positive.

Importance-sampled mode: take the envelope parameters (initialized on
iteration 1), draw `(gQD2, gW)` from the envelope, undo the dipole
transform, evaluate the cross section, draw the control variable
`t = envelope(gQD2, gW) * rnd`, check the cross-section ceiling assertion,
and accept iff `t < J * xsec`. -/
def resTrial (cfg : Config) (ext : Externals) (Wmin Wmax xsecMax : ℚ)
    (iter : Nat) (st : LoopSt) : TrialResult :=
  let dW := Wmax - Wmin
  if cfg.fGenerateUniformly then
    let gW := Wmin + dW * ext.rnd st.rndIdx
    let Q2 := Q2Range cfg (ext.physQ2 (st.inter.kine.W.getD 0))
    if Q2.max ≤ 0 ∨ Q2.min ≥ Q2.max then
      .reject { st with rndIdx := st.rndIdx + 1 }
    else
      let gQ2 := Q2.min + (Q2.max - Q2.min) * ext.rnd (st.rndIdx + 1)
      let inter := { st.inter with bitSkipKinematicChk := true }
      let inter := setWQ2running inter gW gQ2
      let xv := ext.xsec gW gQ2
      let st' := { st with inter := inter, rndIdx := st.rndIdx + 2 }
      if 0 < xv then .accept st' gW gQ2 xv else .reject st'
  else
    let envp := envParamsAt cfg ext Wmin Wmax xsecMax iter st
    let p := ext.envSample envp iter
    let gQD2 := p.1
    let gW := p.2
    let gQ2 := ext.qd2toQ2 gQD2
    let inter := setWQ2running st.inter gW gQ2
    let xv := ext.xsec gW gQ2
    let ceiling := ext.envEval envp gQD2 gW
    let t := ceiling * ext.rnd st.rndIdx
    let J := ext.jacobian gW gQ2
    let st' := { st with inter := inter, env := some envp,
                         rndIdx := st.rndIdx + 1 }
    if assertXSecLimitsOK xv ceiling cfg.fMaxXSecDiffTolerance then
      if t < J * xv then .accept st' gW gQ2 xv else .reject st'
    else .fatal st'

/-- The outcome of `ProcessEventRecord`: normal return with locked
kinematics, one of the two structured failures, the failed precondition
assertion on the W range (process abort), or the cross-section-ceiling hard
stop. -/
inductive Outcome where
  | accepted (ev : GHepRecord) (inter : Interaction)
  | noPhaseSpace (ev : GHepRecord) (exn : EVGThreadException) (inter : Interaction)
  | exhausted (ev : GHepRecord) (exn : EVGThreadException) (inter : Interaction) (trials : Nat)
  | assertViolation (ev : GHepRecord) (inter : Interaction)
  | xsecLimitFault (ev : GHepRecord) (inter : Interaction)

/-- The accepted-kinematics epilogue (source lines 197–237): reset the trust
bits, compute (x, y) from the accepted (W, Q2), store the differential cross
section, in uniform mode compute the weight
`(PhaseSpaceVolume / GetXSec) * xsec` and multiply it into the current event
weight, then lock W, Q2, x, y as selected and clear the running values. -/
def commitAccepted (cfg : Config) (ext : Externals) (st : LoopSt)
    (gW gQ2 xv : ℚ) : Outcome :=
  let inter := { st.inter with bitSkipProcessChk := false,
                               bitSkipKinematicChk := false }
  let gxy := ext.wq2toXY ext.probeE ext.struckNucM gW gQ2
  let ev := { st.ev with diffXSec := some xv }
  let ev :=
    if cfg.fGenerateUniformly then
      let vol := ext.phaseSpaceVolume
      let totxsec := st.ev.xsec
      let wght := (vol / totxsec) * xv
      let wght := wght * ev.weight
      { ev with weight := wght }
    else ev
  let kine : Kinematics :=
    { W := none, Q2 := none, x := none, y := none,
      selW := some gW, selQ2 := some gQ2,
      selx := some gxy.1, sely := some gxy.2 }
  .accepted ev { inter with kine := kine }

/-- The rejection loop (source lines 100–239), as structural recursion on
the iterations remaining before the `kRjMaxIterations` ceiling: with no
iterations remaining the source's `iter > kRjMaxIterations` guard fires and
throws the exhaustion exception (flag `kNoValidKinematics`, reason string,
fast-forward); otherwise one trial body runs and an accepted candidate is
committed, a rejection recurses, and the ceiling-assertion hard stop
propagates. -/
def resLoop (cfg : Config) (ext : Externals) (Wmin Wmax xsecMax : ℚ) :
    Nat → Nat → LoopSt → Outcome
  | 0, _iter, st =>
      .exhausted { st.ev with flagNoValidKinematics := true }
        ⟨"Couldn't select kinematics", true⟩ st.inter st.trials
  | rem + 1, iter, st =>
      match resTrial cfg ext Wmin Wmax xsecMax iter
              { st with trials := st.trials + 1 } with
      | .accept st' gW gQ2 xv => commitAccepted cfg ext st' gW gQ2 xv
      | .reject st' => resLoop cfg ext Wmin Wmax xsecMax rem (iter + 1) st'
      | .fatal st' => .xsecLimitFault st'.ev st'.inter

/-- The precondition assertion on the W range (source line 74):
`assert(W.min >= 0. && W.min < W.max)`. -/
def wAssertHolds (W : Range1D) : Bool :=
  decide (0 ≤ W.min) && decide (W.min < W.max)

/-- The empty-phase-space check on the W range (source line 76):
`W.max <= 0 || W.min >= W.max`. -/
def wEmptyCheck (W : Range1D) : Bool :=
  decide (W.max ≤ 0) || decide (W.min ≥ W.max)

/-- `RESKinematicsGenerator::ProcessEventRecord`: set the
skip-process-check bit, compute the W range, run the precondition
assertion, signal `NoAvailablePhaseSpace` on an empty range, compute the
max cross section (irrelevant, -1, in uniform mode), clamp the W range by
`kASmallNum`, and enter the rejection loop with `maxIter` standing for
`kRjMaxIterations`. -/
def processEventRecord (cfg : Config) (ext : Externals) (ev0 : GHepRecord)
    (inter0 : Interaction) (maxIter : Nat) : Outcome :=
  let inter := { inter0 with bitSkipProcessChk := true }
  let W := WRange cfg ext.physW
  if wAssertHolds W = false then .assertViolation ev0 inter
  else if wEmptyCheck W then
    .noPhaseSpace { ev0 with flagNoAvailPhaseSpace := true }
      ⟨"No available phase space", true⟩ inter
  else
    let xsecMax := if cfg.fGenerateUniformly then -1 else ext.maxXSec
    let Wmin := W.min + kASmallNum
    let Wmax := W.max - kASmallNum
    resLoop cfg ext Wmin Wmax xsecMax maxIter 1
      { inter := inter, ev := ev0, rndIdx := 0, env := none, trials := 0 }

/-- The result of the `ComputeMaxXSec` grid scan, with two instrumentation
fields recording the observable control flow: the forward index at which the
refinement sub-scan triggered (if it did) and the number of forward grid
points sampled. -/
structure ScanResult where
  maxXsec : ℚ
  refinedAt : Option Nat
  nForward : Nat
deriving DecidableEq

/-- The refinement sub-scan of `ComputeMaxXSec` (source lines 410–422), in
log-Q2 coordinates: `kNQ2b = 3` backward steps `t := t - d` from the current
point, skipping (but still stepping past) points below the lower boundary
`lo = log(rQ2.min)`, folding each sampled cross section into the running
maximum. -/
def resBackwardScan (S : ℚ → ℚ) (lo : ℚ) : Nat → ℚ → ℚ → ℚ → ℚ
  | 0, _t, _d, m => m
  | b + 1, t, d, m =>
      let t' := t - d
      if t' < lo then resBackwardScan S lo b t' d m
      else resBackwardScan S lo b t' d (max (S t') m)

/-- The forward logarithmic scan of `ComputeMaxXSec` (source lines 393–423),
in log-Q2 coordinates, recursing on the grid points remaining out of
`NQ2 = 15`: sample `S (tmin + iq2*d)`, fold into the running maximum, and on
the first step that is not non-decreasing (`xsec - xseclast >= 0` fails,
i.e. the sample is strictly below the previous one) divide the step by
`kNQ2b = 3`, run the backward sub-scan from the current point, and stop. -/
def resForwardScan (S : ℚ → ℚ) (lo tmin d : ℚ) :
    Nat → Nat → ℚ → ℚ → ScanResult
  | 0, iq2, _last, m => ⟨m, none, iq2⟩
  | rem + 1, iq2, last, m =>
      let t := tmin + iq2 * d
      let x := S t
      let m' := max x m
      if 0 ≤ x - last then resForwardScan S lo tmin d rem (iq2 + 1) x m'
      else ⟨resBackwardScan S lo 3 t (d / 3) m', some iq2, iq2 + 1⟩

/-- The whole `ComputeMaxXSec` grid scan: 15 points on a logarithmic grid of
step `d = (logQ2max - logQ2min)/(NQ2-1)`, starting with `max_xsec = 0` and
`xseclast = -1`. -/
def resMaxXSecScan (S : ℚ → ℚ) (lo tmin tmax : ℚ) : ScanResult :=
  resForwardScan S lo tmin ((tmax - tmin) / 14) 15 0 (-1) 0

/-- The running maximum of the forward samples `S tmin, …, S (tmin + i*d)`,
folded onto the initial `max_xsec = 0`. -/
def forwardMax (S : ℚ → ℚ) (tmin d : ℚ) : Nat → ℚ
  | 0 => max (S tmin) 0
  | j + 1 => max (S (tmin + (j + 1) * d)) (forwardMax S tmin d j)

/-- The tail of `ComputeMaxXSec` (source line 428): the grid maximum is
multiplied by the fixed factor 2 when the incident energy is below 0.8,
and by the configured safety factor otherwise. -/
def computeMaxXSec (S : ℚ → ℚ) (lo tmin tmax E sf : ℚ) : ℚ :=
  (resMaxXSecScan S lo tmin tmax).maxXsec * (if E < 4/5 then 2 else sf)

/-! ### Outcome and trial-result projections -/

/-- Is the trial result an acceptance? -/
def isAcceptT : TrialResult → Bool
  | .accept _ _ _ _ => true
  | _ => false

/-- Is the trial result a rejection (`continue`)? -/
def isRejectT : TrialResult → Bool
  | .reject _ => true
  | _ => false

/-- Is the trial result the ceiling-assertion hard stop? -/
def isFatalT : TrialResult → Bool
  | .fatal _ => true
  | _ => false

/-- The loop state carried by a trial result. -/
def trialState : TrialResult → LoopSt
  | .accept st _ _ _ => st
  | .reject st => st
  | .fatal st => st

/-- The candidate Q2 of an accepted trial. -/
def acceptQ2Of : TrialResult → Option ℚ
  | .accept _ _ gQ2 _ => some gQ2
  | _ => none

/-- The candidate W of an accepted trial. -/
def acceptWOf : TrialResult → Option ℚ
  | .accept _ gW _ _ => some gW
  | _ => none

/-- Did the selection return normally with accepted kinematics? -/
def isAcceptedO : Outcome → Bool
  | .accepted _ _ => true
  | _ => false

/-- Did the selection signal `NoAvailablePhaseSpace`? -/
def isNoPhaseSpaceO : Outcome → Bool
  | .noPhaseSpace _ _ _ => true
  | _ => false

/-- Did the selection signal the iteration-ceiling exhaustion? -/
def isExhaustedO : Outcome → Bool
  | .exhausted _ _ _ _ => true
  | _ => false

/-- Did the W-range precondition assertion fail (process abort)? -/
def isAssertViolationO : Outcome → Bool
  | .assertViolation _ _ => true
  | _ => false

/-- The event record carried by an outcome. -/
def outcomeEv : Outcome → GHepRecord
  | .accepted ev _ => ev
  | .noPhaseSpace ev _ _ => ev
  | .exhausted ev _ _ _ => ev
  | .assertViolation ev _ => ev
  | .xsecLimitFault ev _ => ev

/-- The interaction carried by an outcome. -/
def outcomeInter : Outcome → Interaction
  | .accepted _ i => i
  | .noPhaseSpace _ _ i => i
  | .exhausted _ _ i _ => i
  | .assertViolation _ i => i
  | .xsecLimitFault _ i => i

/-- The structured exception carried by a failure outcome. -/
def outcomeExn : Outcome → Option EVGThreadException
  | .noPhaseSpace _ exn _ => some exn
  | .exhausted _ exn _ _ => some exn
  | _ => none

/-- The executed-trial count reported by the exhaustion outcome. -/
def outcomeTrials : Outcome → Nat
  | .exhausted _ _ _ n => n
  | _ => 0

/-- No selected (locked) kinematic value is present. -/
def lockedFree (k : Kinematics) : Bool :=
  k.selW.isNone && k.selQ2.isNone && k.selx.isNone && k.sely.isNone

/-- All four kinematic values are locked and all running values cleared. -/
def lockedAll (k : Kinematics) : Bool :=
  k.selW.isSome && k.selQ2.isSome && k.selx.isSome && k.sely.isSome &&
  k.W.isNone && k.Q2.isNone && k.x.isNone && k.y.isNone

/-! ### Named intermediates of the importance-sampled acceptance decision
(source lines 164–190) -/

/-- The candidate `(gQD2, gW)` drawn from the envelope at this iteration. -/
def impCand (cfg : Config) (ext : Externals) (Wmin Wmax xsecMax : ℚ)
    (iter : Nat) (st : LoopSt) : ℚ × ℚ :=
  ext.envSample (envParamsAt cfg ext Wmin Wmax xsecMax iter st) iter

/-- The true differential cross section at the candidate point (after the
`QD2 → Q2` transform). -/
def impXSec (cfg : Config) (ext : Externals) (Wmin Wmax xsecMax : ℚ)
    (iter : Nat) (st : LoopSt) : ℚ :=
  ext.xsec (impCand cfg ext Wmin Wmax xsecMax iter st).2
    (ext.qd2toQ2 (impCand cfg ext Wmin Wmax xsecMax iter st).1)

/-- The envelope density evaluated at the candidate point
(`fEnvelope->Eval(gQD2, gW)`), the trial's effective ceiling. -/
def impEnvDensity (cfg : Config) (ext : Externals) (Wmin Wmax xsecMax : ℚ)
    (iter : Nat) (st : LoopSt) : ℚ :=
  ext.envEval (envParamsAt cfg ext Wmin Wmax xsecMax iter st)
    (impCand cfg ext Wmin Wmax xsecMax iter st).1
    (impCand cfg ext Wmin Wmax xsecMax iter st).2

/-- The control variable: a fresh uniform draw scaled by the envelope
density at the candidate point (`t = max * Rndm()`). -/
def impControl (cfg : Config) (ext : Externals) (Wmin Wmax xsecMax : ℚ)
    (iter : Nat) (st : LoopSt) : ℚ :=
  impEnvDensity cfg ext Wmin Wmax xsecMax iter st * ext.rnd st.rndIdx

/-- The Jacobian between the physical and de-dipoled phase-space
conventions at the candidate point. -/
def impJacobian (cfg : Config) (ext : Externals) (Wmin Wmax xsecMax : ℚ)
    (iter : Nat) (st : LoopSt) : ℚ :=
  ext.jacobian (impCand cfg ext Wmin Wmax xsecMax iter st).2
    (ext.qd2toQ2 (impCand cfg ext Wmin Wmax xsecMax iter st).1)

/-- What the uniform-mode claim prescribes for the Q2 draw: recompute the
conditional Q2 range at the freshly drawn primary value `gW`, then draw
uniformly across it.  (Stated from the specification's words, for
comparison with the embedded code.) -/
def uniformQ2DrawClaimed (cfg : Config) (ext : Externals) (gW u2 : ℚ) : ℚ :=
  let r := Q2Range cfg (ext.physQ2 gW)
  r.min + (r.max - r.min) * u2

/-! ### Concrete fixtures for witnesses and counterexamples -/

/-- Default configuration (importance-sampled mode). -/
def cfgBase : Config := loadConfigData emptyRegistry 999999

/-- Default configuration switched to uniform mode. -/
def cfgU : Config := { cfgBase with fGenerateUniformly := true }

/-- A concrete external environment: physical W range [1, 2], Q2 range
[0, W] as a function of the current W, unit cross section and Jacobian,
envelope density 2, constant random stream 1/2. -/
def extBase : Externals where
  physW := ⟨1, 2⟩
  physQ2 := fun w => ⟨0, w⟩
  xsec := fun _ _ => 1
  jacobian := fun _ _ => 1
  envEval := fun _ _ _ => 2
  envSample := fun _ _ => (1/2, 3/2)
  q2toQD2 := fun q => q
  qd2toQ2 := fun q => q
  rnd := fun _ => 1/2
  maxXSec := 5
  knownRes := none
  probeE := 1
  struckNucM := 1
  wq2toXY := fun _ _ _ _ => (1/3, 1/4)
  phaseSpaceVolume := 2

/-- A fresh interaction with no kinematic values set. -/
def interInit : Interaction :=
  ⟨⟨none, none, none, none, none, none, none, none⟩, false, false⟩

/-- A fresh event record with total cross section 4 and weight 3. -/
def evInit : GHepRecord := ⟨false, false, none, 4, 3⟩

/-- A fresh loop state. -/
def stInit : LoopSt := ⟨interInit, evInit, 0, none, 0⟩

/-- Externals whose envelope density (1/2) lies below the unit cross
section, so the ceiling assertion fails. -/
def extCeilViol : Externals := { extBase with envEval := fun _ _ _ => 1/2 }

/-- Externals with an identically vanishing cross section: no uniform-mode
trial can ever accept. -/
def extZero : Externals :=
  { extBase with xsec := fun _ _ => 0, physQ2 := fun _ => ⟨0, 1⟩ }

/-- Externals accepting on the first uniform trial: constant Q2 range
[0, 1]. -/
def extAccept : Externals := { extBase with physQ2 := fun _ => ⟨0, 1⟩ }

/-- A loop state whose interaction carries the stale running W = 1.2. -/
def stStaleW : LoopSt :=
  { stInit with inter :=
      { interInit with kine := { interInit.kine with W := some (6/5) } } }

/-- Configuration with user W cuts [3, 4], entirely above the physical
W range [1, 2] of `extBase`. -/
def cfgCutOutside : Config := { cfgBase with fWmin := 3, fWmax := 4 }

/-- Configuration for the C8 scenario: user cut W-max 1.5 and Wcut 1.3. -/
def cfgScenario : Config := { cfgBase with fWmax := 3/2, fWcut := 13/10 }

/-- Registry configuring a safety factor of 3 (larger than the low-energy
fixed factor 2). -/
def cfgBigSF : Config :=
  loadConfigData { emptyRegistry with safetyFactor := some 3 } 999999

/-- A single-peak sample function (in log-Q2 coordinates) for exercising
the refinement sub-scan: non-negative, increasing up to t = 2, then
decreasing. -/
def sPeak : ℚ → ℚ := fun t => max 0 (4 - (t - 2) * (t - 2))

/-! ### Helper lemmas -/

/-- A trial body never touches the event record, the executed-trial count,
or the selected (locked) kinematic values. -/
theorem resTrial_preserves (cfg : Config) (ext : Externals) (a b c : ℚ)
    (i : Nat) (st : LoopSt) :
    (trialState (resTrial cfg ext a b c i st)).ev = st.ev ∧
    (trialState (resTrial cfg ext a b c i st)).trials = st.trials ∧
    (trialState (resTrial cfg ext a b c i st)).inter.kine.selW
      = st.inter.kine.selW ∧
    (trialState (resTrial cfg ext a b c i st)).inter.kine.selQ2
      = st.inter.kine.selQ2 ∧
    (trialState (resTrial cfg ext a b c i st)).inter.kine.selx
      = st.inter.kine.selx ∧
    (trialState (resTrial cfg ext a b c i st)).inter.kine.sely
      = st.inter.kine.sely := by
  unfold resTrial
  dsimp only []
  repeat' split
  all_goals simp [trialState, setWQ2running]

/-- If the W-range precondition assertion holds then the empty-phase-space
check is false. -/
theorem wAssertHolds_empty_false (W : Range1D) (h : wAssertHolds W = true) :
    wEmptyCheck W = false := by
  simp only [wAssertHolds, Bool.and_eq_true, decide_eq_true_eq] at h
  simp only [wEmptyCheck, Bool.or_eq_false_iff, decide_eq_false_iff_not]
  constructor
  · linarith [h.1, h.2]
  · exact not_le.mpr h.2

/-- The rejection loop itself never produces the `NoAvailablePhaseSpace`
outcome. -/
theorem resLoop_no_noPhaseSpace (cfg : Config) (ext : Externals) (a b c : ℚ) :
    ∀ rem iter st,
      isNoPhaseSpaceO (resLoop cfg ext a b c rem iter st) = false := by
  intro rem
  induction rem with
  | zero => intro iter st; rfl
  | succ r ih =>
      intro iter st
      simp only [resLoop]
      cases hr : resTrial cfg ext a b c iter { st with trials := st.trials + 1 } with
      | accept st' gW gQ2 xv => rfl
      | reject st' => exact ih (iter + 1) st'
      | fatal st' => rfl

/-! ### Claim theorems -/

/-- C8: the effective upper bound of the W range equals the minimum of the
user-cut-narrowed physical maximum and the configured Wcut ceiling, so Wcut
upper-bounds `W.max` regardless of user cuts; for a physical W range
[1, 2], user W-max cut 1.5 and Wcut 1.3, the effective range is [1, 1.3]
(and [1, 1.5] before the Wcut cap). -/
theorem res_c8 :
    (∀ (physW : Range1D) (cfg : Config),
        (WRange cfg physW).max = min cfg.fWcut (min physW.max cfg.fWmax)) ∧
    WRange { cfgScenario with fWcut := 999999 } ⟨1, 2⟩ = ⟨1, 3/2⟩ ∧
    WRange cfgScenario ⟨1, 2⟩ = ⟨1, 13/10⟩ := by
  refine ⟨fun physW cfg => rfl, by with_unfolding_all rfl, by with_unfolding_all rfl⟩

/-- C10: the `assert(W.min>=0 && W.min<W.max)` precondition executes before
the empty-W-range check, and whenever the assertion holds the check is
false; hence the `NoAvailablePhaseSpace` outcome is unreachable in
`processEventRecord` — an empty W range trips the assertion instead. -/
theorem res_c10 :
    (∀ W : Range1D, wAssertHolds W = true → wEmptyCheck W = false) ∧
    (∀ (cfg : Config) (ext : Externals) (ev0 : GHepRecord)
        (inter0 : Interaction) (n : Nat),
      isNoPhaseSpaceO (processEventRecord cfg ext ev0 inter0 n) = false) := by
  refine ⟨wAssertHolds_empty_false, fun cfg ext ev0 inter0 n => ?_⟩
  simp only [processEventRecord]
  by_cases h1 : wAssertHolds (WRange cfg ext.physW) = false
  · rw [if_pos h1]; rfl
  · rw [if_neg h1]
    have h1' : wAssertHolds (WRange cfg ext.physW) = true :=
      Bool.not_eq_false _ ▸ (eq_true_of_ne_false h1)
    have h2 := wAssertHolds_empty_false _ h1'
    rw [h2]
    simp only [Bool.false_eq_true, if_false]
    exact resLoop_no_noPhaseSpace cfg ext _ _ _ n 1 _

/-- C10 witness: a concrete W range satisfying the assertion, on which the
empty-range check is false. -/
theorem res_c10_witness : wEmptyCheck ⟨0, 1⟩ = false :=
  res_c10.1 ⟨0, 1⟩ (by with_unfolding_all rfl)

set_option maxRecDepth 8000 in
/-- C5 (code bug): with physical W range [1, 2] and user W cuts [3, 4]
(entirely outside the physical range), the effective W range is empty, the
precondition assertion `W.min >= 0 && W.min < W.max` fails — a process
abort — and the structured `NoAvailablePhaseSpace` failure is never
raised. -/
theorem res_c5_code_bug :
    (WRange cfgCutOutside extBase.physW).max
        < (WRange cfgCutOutside extBase.physW).min ∧
    isAssertViolationO
        (processEventRecord cfgCutOutside extBase evInit interInit 5) = true ∧
    isNoPhaseSpaceO
        (processEventRecord cfgCutOutside extBase evInit interInit 5) = false := by
  refine ⟨by apply of_decide_eq_true; with_unfolding_all rfl, by with_unfolding_all rfl,
    by with_unfolding_all rfl⟩

set_option maxRecDepth 8000 in
/-- C9 counterexample: with a configured safety factor of 3, the
low-energy branch still multiplies by the fixed factor 2 — which is *not*
larger than the configured factor — while the high-energy branch multiplies
by 3. -/
theorem res_c9_counterexample :
    cfgBigSF.fSafetyFactor = 3 ∧
    computeMaxXSec (fun _ => 5) (-1) 0 14 (1/2) cfgBigSF.fSafetyFactor = 10 ∧
    computeMaxXSec (fun _ => 5) (-1) 0 14 1 cfgBigSF.fSafetyFactor = 15 ∧
    ¬ ((2:ℚ) > 3) := by
  refine ⟨by with_unfolding_all rfl, by with_unfolding_all rfl,
    by with_unfolding_all rfl, by apply of_decide_eq_true; with_unfolding_all rfl⟩

/-- C9 (amended): the search multiplies the grid maximum by the fixed
factor 2 below the incident-energy threshold 0.8 and by the configured
safety factor otherwise; the fixed factor 2 exceeds the *default*
configurable factor 1.25, but not necessarily a user-configured one. -/
theorem res_c9_amended (S : ℚ → ℚ) (lo tmin tmax E sf : ℚ) :
    (E < 4/5 → computeMaxXSec S lo tmin tmax E sf
        = (resMaxXSecScan S lo tmin tmax).maxXsec * 2) ∧
    (¬ E < 4/5 → computeMaxXSec S lo tmin tmax E sf
        = (resMaxXSecScan S lo tmin tmax).maxXsec * sf) ∧
    (loadConfigData emptyRegistry 999999).fSafetyFactor = 5/4 ∧
    ((5:ℚ)/4 < 2) := by
  refine ⟨fun h => ?_, fun h => ?_, rfl, by norm_num⟩
  · simp [computeMaxXSec, if_pos h]
  · simp [computeMaxXSec, if_neg h]

/-- C9 witness: the amended theorem applied at a concrete low energy. -/
theorem res_c9_amended_witness :
    computeMaxXSec (fun _ => (5:ℚ)) (-1) 0 14 (1/2) 7
      = (resMaxXSecScan (fun _ => (5:ℚ)) (-1) 0 14).maxXsec * 2 :=
  (res_c9_amended (fun _ => (5:ℚ)) (-1) 0 14 (1/2) 7).1 (by norm_num)

set_option maxRecDepth 8000 in
/-- C3 (code bug): in uniform mode the trial draws gW = 1.5 but computes
the Q2 bounds from the interaction's stale running W = 1.2 (the code calls
`Q2Range(interaction)` before storing gW), sampling Q2 = 0.6; the claimed
behaviour — recompute the bounds at the freshly drawn W — would sample
Q2 = 0.75. -/
theorem res_c3_code_bug :
    acceptWOf (resTrial cfgU extBase 1 2 (-1) 5 stStaleW) = some (3/2) ∧
    acceptQ2Of (resTrial cfgU extBase 1 2 (-1) 5 stStaleW) = some (3/5) ∧
    stStaleW.inter.kine.W = some (6/5) ∧
    uniformQ2DrawClaimed cfgU extBase (3/2) (1/2) = 3/4 ∧
    ((3:ℚ)/5 ≠ 3/4) := by
  refine ⟨by with_unfolding_all rfl, by with_unfolding_all rfl, by with_unfolding_all rfl,
    by with_unfolding_all rfl, by apply of_decide_eq_true; with_unfolding_all rfl⟩

/-- C1: in importance-sampled mode every trial draws the control variable
`t = envelope(gQD2, gW) * u` (a uniform draw scaled by the envelope density
at the candidate point) and accepts iff `t < Jacobian * xsec`; the
cross-section-ceiling assertion is checked before the acceptance decision,
and its violation is a hard stop rather than an acceptance comparison. -/
theorem res_c1 (cfg : Config) (ext : Externals) (Wmin Wmax xm : ℚ)
    (iter : Nat) (st : LoopSt)
    (hmode : cfg.fGenerateUniformly = false) :
    (assertXSecLimitsOK (impXSec cfg ext Wmin Wmax xm iter st)
        (impEnvDensity cfg ext Wmin Wmax xm iter st)
        cfg.fMaxXSecDiffTolerance = true →
      (isAcceptT (resTrial cfg ext Wmin Wmax xm iter st) = true ↔
        impControl cfg ext Wmin Wmax xm iter st <
          impJacobian cfg ext Wmin Wmax xm iter st *
            impXSec cfg ext Wmin Wmax xm iter st)) ∧
    (assertXSecLimitsOK (impXSec cfg ext Wmin Wmax xm iter st)
        (impEnvDensity cfg ext Wmin Wmax xm iter st)
        cfg.fMaxXSecDiffTolerance = false →
      isFatalT (resTrial cfg ext Wmin Wmax xm iter st) = true) := by
  unfold resTrial
  rw [hmode]
  dsimp only []
  simp only [Bool.false_eq_true, if_false]
  unfold impControl impJacobian impXSec impEnvDensity impCand
  constructor
  · intro hassert
    rw [hassert]
    simp only [if_true]
    split
    · next hlt => simp [isAcceptT, hlt]
    · next hge => simp [isAcceptT, hge]
  · intro hassert
    rw [hassert]
    simp [isFatalT]

/-- C1 witness: with an envelope density (1/2) below the unit cross section
and zero tolerance, the ceiling assertion fails and the trial is the hard
stop. -/
theorem res_c1_witness :
    isFatalT (resTrial cfgBase extCeilViol 1 2 5 1 stInit) = true :=
  (res_c1 cfgBase extCeilViol 1 2 5 1 stInit rfl).2 (by with_unfolding_all rfl)

/-- If every trial rejects, the loop executes exactly one trial body per
remaining iteration and ends in the exhaustion outcome carrying the
`kNoValidKinematics` flag, the reason string and the fast-forward
directive. -/
theorem resLoop_exhausts (cfg : Config) (ext : Externals) (a b c : ℚ)
    (hrej : ∀ i s, isRejectT (resTrial cfg ext a b c i s) = true) :
    ∀ rem iter st,
      isExhaustedO (resLoop cfg ext a b c rem iter st) = true ∧
      outcomeTrials (resLoop cfg ext a b c rem iter st) = st.trials + rem ∧
      (outcomeEv (resLoop cfg ext a b c rem iter st)).flagNoValidKinematics
        = true ∧
      outcomeExn (resLoop cfg ext a b c rem iter st)
        = some ⟨"Couldn't select kinematics", true⟩ := by
  intro rem
  induction rem with
  | zero => exact fun iter st => ⟨rfl, rfl, rfl, rfl⟩
  | succ r ih =>
      intro iter st
      have hr := hrej iter { st with trials := st.trials + 1 }
      have hts := (resTrial_preserves cfg ext a b c iter
        { st with trials := st.trials + 1 }).2.1
      simp only [resLoop]
      cases hcase : resTrial cfg ext a b c iter
          { st with trials := st.trials + 1 } with
      | accept st' gW gQ2 xv => rw [hcase] at hr; exact absurd hr (by simp [isRejectT])
      | fatal st' => rw [hcase] at hr; exact absurd hr (by simp [isRejectT])
      | reject st' =>
          rw [hcase] at hts
          have htr : st'.trials = st.trials + 1 := hts
          obtain ⟨e1, e2, e3, e4⟩ := ih (iter + 1) st'
          exact ⟨e1, by rw [e2, htr]; omega, e3, e4⟩

/-- C2: when no trial is accepted, the rejection loop performs exactly
`maxIter` (the configured `kRjMaxIterations`) trial bodies and then raises
the kinematic-selection-exhausted failure — setting the
`kNoValidKinematics` flag on the event record and carrying the reason
string and the fast-forward directive — rather than looping once more;
in particular the loop always terminates. -/
theorem res_c2 (cfg : Config) (ext : Externals) (Wmin Wmax xm : ℚ)
    (maxIter : Nat) (st : LoopSt)
    (hrej : ∀ i s, isRejectT (resTrial cfg ext Wmin Wmax xm i s) = true) :
    isExhaustedO (resLoop cfg ext Wmin Wmax xm maxIter 1 st) = true ∧
    outcomeTrials (resLoop cfg ext Wmin Wmax xm maxIter 1 st)
      = st.trials + maxIter ∧
    (outcomeEv (resLoop cfg ext Wmin Wmax xm maxIter 1 st)).flagNoValidKinematics
      = true ∧
    outcomeExn (resLoop cfg ext Wmin Wmax xm maxIter 1 st)
      = some ⟨"Couldn't select kinematics", true⟩ :=
  resLoop_exhausts cfg ext Wmin Wmax xm hrej maxIter 1 st

/-- C2 witness: the identically vanishing cross section in uniform mode
rejects every trial, and a ceiling of 3 iterations exhausts after exactly
3 trials. -/
theorem res_c2_witness :
    isExhaustedO (resLoop cfgU extZero 1 2 (-1) 3 1 stInit) = true ∧
    outcomeTrials (resLoop cfgU extZero 1 2 (-1) 3 1 stInit) = 3 := by
  have h := res_c2 cfgU extZero 1 2 (-1) 3 stInit (fun i s => rfl)
  exact ⟨h.1, h.2.1⟩

/-- In uniform mode, an accepted run of the loop stores the weight
`((PhaseSpaceVolume / GetXSec) * xsec) * (previous weight)`, with the event
record fields taken from the loop-entry state (trials do not touch the
event record). -/
theorem resLoop_weight (cfg : Config) (ext : Externals) (a b c : ℚ)
    (hm : cfg.fGenerateUniformly = true) :
    ∀ rem iter st,
      isAcceptedO (resLoop cfg ext a b c rem iter st) = true →
      (outcomeEv (resLoop cfg ext a b c rem iter st)).weight
        = ((ext.phaseSpaceVolume / st.ev.xsec) *
            ((outcomeEv (resLoop cfg ext a b c rem iter st)).diffXSec.getD 0))
          * st.ev.weight := by
  intro rem
  induction rem with
  | zero => intro iter st h; exact absurd h (by simp [resLoop, isAcceptedO])
  | succ r ih =>
      intro iter st
      have hev := (resTrial_preserves cfg ext a b c iter
        { st with trials := st.trials + 1 }).1
      simp only [resLoop]
      cases hcase : resTrial cfg ext a b c iter
          { st with trials := st.trials + 1 } with
      | reject st' =>
          rw [hcase] at hev
          simp only [trialState] at hev
          intro h
          dsimp only [] at h ⊢
          have heq := ih (iter + 1) st' h
          rw [heq, hev]
      | fatal st' => intro h; exact absurd h (by simp [isAcceptedO])
      | accept st' gW gQ2 xv =>
          rw [hcase] at hev
          simp only [trialState] at hev
          intro _
          dsimp only []
          simp only [commitAccepted, hm, if_true, outcomeEv, Option.getD_some]
          rw [hev]

/-- C6: for every accepted event in uniform mode, the committed event
weight equals `(phase-space volume / total cross section already on the
event) * accepted differential cross section`, multiplied into the
pre-existing event weight. -/
theorem res_c6 (cfg : Config) (ext : Externals) (ev0 : GHepRecord)
    (inter0 : Interaction) (n : Nat)
    (hm : cfg.fGenerateUniformly = true)
    (hacc : isAcceptedO (processEventRecord cfg ext ev0 inter0 n) = true) :
    (outcomeEv (processEventRecord cfg ext ev0 inter0 n)).weight
      = ((ext.phaseSpaceVolume / ev0.xsec) *
          ((outcomeEv (processEventRecord cfg ext ev0 inter0 n)).diffXSec.getD 0))
        * ev0.weight := by
  simp only [processEventRecord] at hacc ⊢
  by_cases h1 : wAssertHolds (WRange cfg ext.physW) = false
  · rw [if_pos h1] at hacc; exact absurd hacc (by simp [isAcceptedO])
  · rw [if_neg h1] at hacc ⊢
    by_cases h2 : wEmptyCheck (WRange cfg ext.physW) = true
    · rw [if_pos h2] at hacc; exact absurd hacc (by simp [isAcceptedO])
    · rw [if_neg h2] at hacc ⊢
      exact resLoop_weight cfg ext _ _ _ hm _ _ _ hacc

/-- C6 witness: a uniform-mode run accepting on the first trial, with
phase-space volume 2, event total cross section 4, cross section 1 and
pre-existing weight 3, commits weight (2/4)*1*3 = 3/2. -/
theorem res_c6_witness :
    (outcomeEv (processEventRecord cfgU extAccept evInit interInit 4)).weight
      = 3/2 := by
  have h := res_c6 cfgU extAccept evInit interInit 4 rfl rfl
  rw [h]
  have hd : (outcomeEv (processEventRecord cfgU extAccept evInit interInit 4)).diffXSec
      = some 1 := rfl
  rw [hd]
  norm_num [extAccept, extBase, evInit]

/-- Failure outcomes of the loop leave the selected (locked) kinematic
values exactly as they were at loop entry; an accepted outcome locks all
four and clears the running values. -/
theorem resLoop_locks (cfg : Config) (ext : Externals) (a b c : ℚ) :
    ∀ rem iter st, lockedFree st.inter.kine = true →
      (isExhaustedO (resLoop cfg ext a b c rem iter st) = true →
        lockedFree (outcomeInter (resLoop cfg ext a b c rem iter st)).kine
          = true) ∧
      (isAcceptedO (resLoop cfg ext a b c rem iter st) = true →
        lockedAll (outcomeInter (resLoop cfg ext a b c rem iter st)).kine
          = true) := by
  intro rem
  induction rem with
  | zero =>
      intro iter st hfree
      exact ⟨fun _ => hfree, fun h => absurd h (by simp [resLoop, isAcceptedO])⟩
  | succ r ih =>
      intro iter st hfree
      have hsel := (resTrial_preserves cfg ext a b c iter
        { st with trials := st.trials + 1 }).2.2
      simp only [resLoop]
      cases hcase : resTrial cfg ext a b c iter
          { st with trials := st.trials + 1 } with
      | reject st' =>
          rw [hcase] at hsel
          simp only [trialState] at hsel
          have hfree' : lockedFree st'.inter.kine = true := by
            simp only [lockedFree] at hfree ⊢
            rw [hsel.1, hsel.2.1, hsel.2.2.1, hsel.2.2.2]
            exact hfree
          exact ih (iter + 1) st' hfree'
      | fatal st' =>
          exact ⟨fun h => by simp [isExhaustedO] at h,
                 fun h => by simp [isAcceptedO] at h⟩
      | accept st' gW gQ2 xv =>
          refine ⟨fun h => ?_, fun _ => ?_⟩
          · exact absurd h (by simp [commitAccepted, isExhaustedO])
          · simp [commitAccepted, outcomeInter, lockedAll]

/-- C7: on the `NoAvailablePhaseSpace` and exhaustion failure paths no
kinematic value of the interaction is locked (given none was locked on
entry); kinematic values are locked — and the running values cleared —
exactly on confirmed acceptance. -/
theorem res_c7 (cfg : Config) (ext : Externals) (ev0 : GHepRecord)
    (inter0 : Interaction) (n : Nat)
    (hfree : lockedFree inter0.kine = true) :
    (isNoPhaseSpaceO (processEventRecord cfg ext ev0 inter0 n) = true →
      lockedFree (outcomeInter (processEventRecord cfg ext ev0 inter0 n)).kine
        = true) ∧
    (isExhaustedO (processEventRecord cfg ext ev0 inter0 n) = true →
      lockedFree (outcomeInter (processEventRecord cfg ext ev0 inter0 n)).kine
        = true) ∧
    (isAcceptedO (processEventRecord cfg ext ev0 inter0 n) = true →
      lockedAll (outcomeInter (processEventRecord cfg ext ev0 inter0 n)).kine
        = true) := by
  simp only [processEventRecord]
  by_cases h1 : wAssertHolds (WRange cfg ext.physW) = false
  · rw [if_pos h1]
    exact ⟨fun h => by simp [isNoPhaseSpaceO] at h,
           fun h => by simp [isExhaustedO] at h,
           fun h => by simp [isAcceptedO] at h⟩
  · rw [if_neg h1]
    by_cases h2 : wEmptyCheck (WRange cfg ext.physW) = true
    · rw [if_pos h2]
      exact ⟨fun _ => hfree,
             fun h => by simp [isExhaustedO] at h,
             fun h => by simp [isAcceptedO] at h⟩
    · rw [if_neg h2]
      have hlk := resLoop_locks cfg ext
        ((WRange cfg ext.physW).min + kASmallNum)
        ((WRange cfg ext.physW).max - kASmallNum)
        (if cfg.fGenerateUniformly then -1 else ext.maxXSec) n 1
        { inter := { inter0 with bitSkipProcessChk := true }, ev := ev0,
          rndIdx := 0, env := none, trials := 0 } hfree
      refine ⟨fun h => ?_, hlk.1, hlk.2⟩
      rw [resLoop_no_noPhaseSpace cfg ext _ _ _ n 1 _] at h
      cases h

/-- C7 witness: a uniform-mode run that exhausts its 2 iterations leaves no
locked kinematic value. -/
theorem res_c7_witness :
    lockedFree
      (outcomeInter (processEventRecord cfgU extZero evInit interInit 2)).kine
      = true :=
  (res_c7 cfgU extZero evInit interInit 2 rfl).2.1 rfl

/-- C4 counterexample: on the constant sample function 5 every step after
the first satisfies "current sample ≤ previous sample", yet the scan never
refines (`refinedAt = none`) and samples all 15 forward grid points — the
code triggers refinement only on a *strictly* decreasing step, and not at
all on this function. -/
theorem res_c4_counterexample :
    (resMaxXSecScan (fun _ => 5) (-1) 0 14).refinedAt = none ∧
    (resMaxXSecScan (fun _ => 5) (-1) 0 14).nForward = 15 ∧
    ((fun _ : ℚ => (5:ℚ)) (0 + 1 * ((14 - 0)/14))
      ≤ (fun _ : ℚ => (5:ℚ)) (0 + 0 * ((14 - 0)/14))) := by
  refine ⟨by with_unfolding_all rfl, by with_unfolding_all rfl, by norm_num⟩

/-- If the forward scan entered at index `iq2 ≥ 1` — with `last` the sample
at index `iq2 - 1` and the running maximum over samples `0..iq2-1` —
reports refinement at index `i`, then `i` is the first strictly decreasing
step at or after `iq2`, exactly `i + 1` forward points were sampled, and
the result is the backward sub-scan (3 steps of size `d/3` from the
trigger point) folded onto the forward running maximum. -/
theorem forwardScan_refined (S : ℚ → ℚ) (lo tmin d : ℚ) :
    ∀ rem iq2 i, 1 ≤ iq2 →
      (resForwardScan S lo tmin d rem iq2 (S (tmin + ((iq2:ℚ) - 1) * d))
          (forwardMax S tmin d (iq2 - 1))).refinedAt = some i →
      iq2 ≤ i ∧ i < iq2 + rem ∧
      S (tmin + (i:ℚ) * d) < S (tmin + ((i:ℚ) - 1) * d) ∧
      (∀ j : Nat, iq2 ≤ j → j < i →
        S (tmin + ((j:ℚ) - 1) * d) ≤ S (tmin + (j:ℚ) * d)) ∧
      resForwardScan S lo tmin d rem iq2 (S (tmin + ((iq2:ℚ) - 1) * d))
          (forwardMax S tmin d (iq2 - 1))
        = ⟨resBackwardScan S lo 3 (tmin + (i:ℚ) * d) (d / 3)
            (forwardMax S tmin d i), some i, i + 1⟩ := by
  intro rem
  induction rem with
  | zero =>
      intro iq2 i hiq h
      exact absurd h (by simp [resForwardScan])
  | succ r ih =>
      intro iq2 i hiq h
      obtain ⟨k, rfl⟩ : ∃ k, iq2 = k + 1 :=
        ⟨iq2 - 1, (Nat.succ_pred_eq_of_pos hiq).symm⟩
      simp only [resForwardScan, Nat.add_sub_cancel] at h ⊢
      have e2 : max (S (tmin + ((k + 1 : ℕ):ℚ) * d)) (forwardMax S tmin d k)
          = forwardMax S tmin d (k + 1) := by
        rw [forwardMax]
        push_cast
        ring_nf
      split at h
      · next hc =>
          rw [e2] at h ⊢
          have e1 : tmin + ((k + 1 : ℕ):ℚ) * d
              = tmin + (((k + 1 + 1 : ℕ):ℚ) - 1) * d := by push_cast; ring
          have hfm : forwardMax S tmin d (k + 1)
              = forwardMax S tmin d ((k + 1 + 1) - 1) := by norm_num
          rw [e1, hfm] at h
          obtain ⟨h1, h2, h3, h4, h5⟩ := ih (k + 1 + 1) i (by omega) h
          refine ⟨by omega, by omega, h3, ?_, ?_⟩
          · intro j hj1 hj2
            rcases Nat.eq_or_lt_of_le hj1 with hj | hj
            · subst hj
              have hb := sub_nonneg.mp hc
              convert hb using 2
            · exact h4 j (by omega) hj2
          · rw [if_pos hc, e1, hfm]
            exact h5
      · next hc =>
          dsimp only [] at h
          obtain rfl : k + 1 = i := Option.some.inj h
          have hlt : S (tmin + ((k + 1 : ℕ):ℚ) * d) < S (tmin + (((k + 1:ℕ):ℚ) - 1) * d) :=
            sub_neg.mp (not_le.mp hc)
          refine ⟨le_refl _, by omega, ?_, ?_, ?_⟩
          · convert hlt using 2
          · intro j hj1 hj2
            exact absurd hj2 (by omega)
          · rw [if_neg hc, e2]

/-- C4 (amended): upon the first step of the logarithmic Q2 scan whose
sampled cross section is *strictly less than* the previous sample, the
search reduces the step size by the fixed divisor 3, takes 3 backward
steps from the current point (still folding into the running maximum,
skipping points below the lower boundary), and terminates the scan early
(`i + 1` of the 15 forward points sampled); the refinement triggers at
most once per search — and, per the counterexample, not at all when no
step strictly decreases. -/
theorem res_c4_amended (S : ℚ → ℚ) (lo tmin tmax : ℚ) (hS : ∀ t, 0 ≤ S t)
    (i : Nat)
    (href : (resMaxXSecScan S lo tmin tmax).refinedAt = some i) :
    1 ≤ i ∧ i ≤ 14 ∧
    S (tmin + (i:ℚ) * ((tmax - tmin)/14))
      < S (tmin + ((i:ℚ) - 1) * ((tmax - tmin)/14)) ∧
    (∀ j : Nat, 1 ≤ j → j < i →
      S (tmin + ((j:ℚ) - 1) * ((tmax - tmin)/14))
        ≤ S (tmin + (j:ℚ) * ((tmax - tmin)/14))) ∧
    (resMaxXSecScan S lo tmin tmax).nForward = i + 1 ∧
    (resMaxXSecScan S lo tmin tmax).maxXsec
      = resBackwardScan S lo 3 (tmin + (i:ℚ) * ((tmax - tmin)/14))
          (((tmax - tmin)/14)/3) (forwardMax S tmin ((tmax - tmin)/14) i) := by
  have hstep : resMaxXSecScan S lo tmin tmax
      = if 0 ≤ S (tmin + ((0:ℕ):ℚ) * ((tmax - tmin)/14)) - (-1)
        then resForwardScan S lo tmin ((tmax - tmin)/14) 14 (0 + 1)
            (S (tmin + ((0:ℕ):ℚ) * ((tmax - tmin)/14)))
            (max (S (tmin + ((0:ℕ):ℚ) * ((tmax - tmin)/14))) 0)
        else ⟨resBackwardScan S lo 3 (tmin + ((0:ℕ):ℚ) * ((tmax - tmin)/14))
                (((tmax - tmin)/14)/3)
                (max (S (tmin + ((0:ℕ):ℚ) * ((tmax - tmin)/14))) 0),
              some 0, 0 + 1⟩ := rfl
  have hcond : (0:ℚ) ≤ S (tmin + ((0:ℕ):ℚ) * ((tmax - tmin)/14)) - (-1) := by
    have := hS (tmin + ((0:ℕ):ℚ) * ((tmax - tmin)/14))
    linarith
  rw [if_pos hcond] at hstep
  have earg : tmin + ((0:ℕ):ℚ) * ((tmax - tmin)/14)
      = tmin + (((1:ℕ):ℚ) - 1) * ((tmax - tmin)/14) := by push_cast; ring
  rw [earg] at hstep
  have emax : max (S (tmin + (((1:ℕ):ℚ) - 1) * ((tmax - tmin)/14))) 0
      = forwardMax S tmin ((tmax - tmin)/14) (1 - 1) := by
    have et : tmin + (((1:ℕ):ℚ) - 1) * ((tmax - tmin)/14) = tmin := by
      push_cast; ring
    simp [forwardMax, et]
  rw [emax] at hstep
  rw [hstep] at href ⊢
  obtain ⟨h1, h2, h3, h4, h5⟩ :=
    forwardScan_refined S lo tmin ((tmax - tmin)/14) 14 (0 + 1) i (le_refl _)
      href
  refine ⟨h1, by omega, h3, ?_, ?_, ?_⟩
  · intro j hj1 hj2
    exact h4 j hj1 hj2
  · rw [h5]
  · rw [h5]

/-- C4 witness: the single-peak sample function refines at forward index 3
(its first strictly decreasing sample), having sampled 4 of the 15 forward
points. -/
theorem res_c4_amended_witness :
    (resMaxXSecScan sPeak (-10) 0 14).nForward = 3 + 1 ∧
    sPeak (0 + ((3:ℕ):ℚ) * ((14 - 0)/14)) < sPeak (0 + (((3:ℕ):ℚ) - 1) * ((14 - 0)/14)) := by
  have h := res_c4_amended sPeak (-10) 0 14 (fun t => le_max_left 0 _) 3
    (by with_unfolding_all rfl)
  exact ⟨h.2.2.2.2.1, h.2.2.1⟩

end RESKin
